import Mathlib

/-!
Verification of the HTTP/1.x message-framing layer of `request-rs`
(`src/proto/http1/parse.rs`, `src/proto/http1/mod.rs`, `src/body.rs`).

Buffers (`BytesMut`, `&[u8]`, and Rust `String`, which is a UTF-8 byte
sequence) are modelled as `List Nat`, one entry per byte.  The low-level
status-line/header tokenizer is the external `httparse` crate, whose code is
not part of this repository; it is modelled from the spec (§4.2 step 1, §6
wire grammar, §7 edge cases) as a byte-at-a-time state machine.  The vendored
`http`-crate types (`HeaderName`, `HeaderValue`, `StatusCode`, `Version`,
`HeaderMap`) are declared in `lib.rs` but their sources are not under `src/`;
they are likewise modelled from the spec where the claims need them.
-/

namespace RequestRs

/-- A byte buffer: one `Nat` per byte (all uses keep values < 256). -/
abbrev Bytes := List Nat

/-- The bytes of an ASCII string literal, used to write concrete wire
buffers and needles compactly. -/
def byts (s : String) : Bytes := s.data.map Char.toNat

/-! ## Body (`src/body.rs`) -/

/-- `BodyKind` from `src/body.rs`: Text holds the UTF-8 bytes of the Rust
`String`, Binary the raw bytes. -/
inductive BodyKind where
  | Text (s : Bytes)
  | Binary (b : Bytes)
  | Empty
deriving DecidableEq

/-- `Body` from `src/body.rs`: a wrapper holding a `BodyKind`. -/
structure Body where
  kind : BodyKind
deriving DecidableEq

/-- `Body::new` (`src/body.rs`). -/
def Body.new (kind : BodyKind) : Body := ⟨kind⟩

/-- `Body::empty` (`src/body.rs`). -/
def Body.empty : Body := Body.new BodyKind.Empty

/-- `Body::from_bytes` (`src/body.rs`): copies the bytes into a Binary body. -/
def Body.from_bytes (bytes : Bytes) : Body := Body.new (BodyKind.Binary bytes)

/-- `Body::from_str` (`src/body.rs`): copies the string into a Text body. -/
def Body.from_str (str : Bytes) : Body := Body.new (BodyKind.Text str)

/-- `Body::from_string` (`src/body.rs`). -/
def Body.from_string (str : Bytes) : Body := Body.new (BodyKind.Text str)

/-- `Body::from_vec` (`src/body.rs`). -/
def Body.from_vec (vec : Bytes) : Body := Body.new (BodyKind.Binary vec)

/-- `Body::body_length` (`src/body.rs` lines 71-83): the `body_kind!` macro
expands to a match over the three variants. -/
def Body.body_length (b : Body) : Nat :=
  match b.kind with
  | BodyKind.Text t => t.length
  | BodyKind.Binary bin => bin.length
  | BodyKind.Empty => 0

/-! ## Keep-alive token scan (`src/proto/http1/mod.rs`) -/

/-- Rust `u8::to_ascii_lowercase`. -/
def lowerByte (b : Nat) : Nat := if 65 ≤ b ∧ b ≤ 90 then b + 32 else b

/-- Rust `str::eq_ignore_ascii_case`. -/
def eq_ignore_ascii_case (a b : Bytes) : Bool := a.map lowerByte == b.map lowerByte

/-- ASCII whitespace trimmed by Rust `str::trim` (header values hold no
bytes ≥ 128, so Unicode whitespace reduces to these). -/
def isAsciiWhitespace (b : Nat) : Bool := b == 32 || b == 9 || b == 10 || b == 13

/-- Rust `str::trim` at the byte level. -/
def trim (s : Bytes) : Bytes :=
  ((s.dropWhile isAsciiWhitespace).reverse.dropWhile isAsciiWhitespace).reverse

/-- Rust `str::split(',')`: splits at every comma, keeping empty pieces. -/
def splitOnComma : Bytes → List Bytes
  | [] => [[]]
  | b :: rest =>
    if b == 44 then [] :: splitOnComma rest
    else
      match splitOnComma rest with
      | h :: t => (b :: h) :: t
      | [] => [[b]]

/-- Modelled from the spec: the vendored `http` crate's
`HeaderValue::to_str` (sources not under `src/`) succeeds exactly when every
byte is visible ASCII or horizontal tab, returning the bytes unchanged. -/
def is_visible_ascii (b : Nat) : Bool := (32 ≤ b && b < 127) || b == 9

/-- Modelled from the spec: `HeaderValue::to_str` of the vendored `http`
crate. -/
def to_str (v : Bytes) : Option Bytes :=
  if v.all is_visible_ascii then some v else none

/-- `connection_has` (`src/proto/http1/mod.rs` lines 15-24): scans the
comma-separated token list of a `Connection` value for `needle`,
case-insensitively, after trimming each token. -/
def connection_has (value : Bytes) (needle : Bytes) : Bool :=
  match to_str value with
  | some s => (splitOnComma s).any (fun val => eq_ignore_ascii_case (trim val) needle)
  | none => false

/-- `connection_keep_alive` (`src/proto/http1/mod.rs` lines 7-9). -/
def connection_keep_alive (value : Bytes) : Bool := connection_has value (byts "keep-alive")

/-- `connection_close` (`src/proto/http1/mod.rs` lines 11-13). -/
def connection_close (value : Bytes) : Bool := connection_has value (byts "close")

/-! ## Version, status code, errors -/

/-- Modelled from the spec: the two-valued internal version enum (§4.2 step
2); the vendored `version.rs` is not under `src/`. -/
inductive Version where
  | HTTP_10
  | HTTP_11
deriving DecidableEq

/-- The error kinds this core can surface (§7): propagated tokenizer
failures, invalid status code, invalid header name, and the encoder's
header-value `to_str` failure.  The repository's `error.rs` wraps these in a
single `Error` type; only the kind matters here. -/
inductive HttpError where
  | httparseError
  | invalidStatusCode
  | invalidHeaderName
  | toStrError
deriving DecidableEq

/-- Modelled from the spec: `StatusCode::from_u16` of the vendored `http`
crate (sources not under `src/`) accepts exactly the three-digit range
100..999 (§7 "invalid numeric status code (outside the valid 3-digit
range)"). -/
def StatusCode.from_u16 (n : Nat) : Except HttpError Nat :=
  if 100 ≤ n ∧ n < 1000 then Except.ok n else Except.error HttpError.invalidStatusCode

/-- `ParserResult` (`src/proto/mod.rs` lines 15-18). -/
inductive ParserResult (α : Type) where
  | Complete (a : α)
  | Partial
deriving DecidableEq

/-! ## The tokenizer, modelled from the spec

Modelled from the spec: the low-level tokenizer is the external `httparse`
crate (not part of this repository).  Per §4.2 step 1, §6 and §7 it locates
`VERSION SP status (SP reason)? CRLF` then up to `MAX_HEADERS` lines
`name: value CRLF` then a terminating blank line `CRLF`; running out of
bytes before that blank line is an incomplete (partial) result, and any
byte that violates the grammar is an error.  It is written as a
byte-at-a-time state machine so that "partial" is, by construction,
exactly "the input ended in a non-final state". -/

/-- `MAX_HEADERS` (`src/proto/http1/parse.rs` line 19). -/
def MAX_HEADERS : Nat := 100

/-- What the tokenizer yields on completion: byte length of the head
(status line + header block + blank line), status code, minor version
digit, and the located header name/value byte strings in wire order. -/
structure Head where
  len : Nat
  code : Nat
  minor : Nat
  headers : List (Bytes × Bytes)
deriving DecidableEq

/-- RFC 7230 `tchar`, the bytes `httparse` accepts in a header name. -/
def isTokenByte (b : Nat) : Bool :=
  (48 ≤ b && b ≤ 57) || (65 ≤ b && b ≤ 90) || (97 ≤ b && b ≤ 122) ||
  b == 33 || b == 35 || b == 36 || b == 37 || b == 38 || b == 39 || b == 42 ||
  b == 43 || b == 45 || b == 46 || b == 94 || b == 95 || b == 96 || b == 124 || b == 126

/-- Bytes admitted inside a header value (anything but control bytes other
than tab). -/
def isValueByte (b : Nat) : Bool := b == 9 || (32 ≤ b && b != 127)

/-- Bytes admitted inside the status-line reason phrase. -/
def isReasonByte (b : Nat) : Bool := b == 9 || 32 ≤ b

/-- Trailing optional whitespace stripped from a header value. -/
def trimEnd (s : Bytes) : Bytes := (s.reverse.dropWhile (fun b => b == 32 || b == 9)).reverse

/-- Tokenizer states.  `lit` is the pending part of the literal `HTTP/1.`;
`codeSt` carries the status-code accumulator and digit count; header states
carry the headers located so far; `doneSt` and `failSt` are absorbing. -/
inductive TokState where
  | lit (rest : Bytes)
  | minorSt
  | spaceSt (minor : Nat)
  | codeSt (minor acc cnt : Nat)
  | afterCode (minor code : Nat)
  | reasonSt (minor code : Nat)
  | statusCR (minor code : Nat)
  | hdrStart (minor code : Nat) (hs : List (Bytes × Bytes))
  | finalCR (minor code : Nat) (hs : List (Bytes × Bytes))
  | nameSt (minor code : Nat) (hs : List (Bytes × Bytes)) (acc : Bytes)
  | valueSkip (minor code : Nat) (hs : List (Bytes × Bytes)) (n : Bytes)
  | valueSt (minor code : Nat) (hs : List (Bytes × Bytes)) (n acc : Bytes)
  | valueCR (minor code : Nat) (hs : List (Bytes × Bytes)) (n acc : Bytes)
  | doneSt (minor code : Nat) (hs : List (Bytes × Bytes))
  | failSt
deriving DecidableEq

/-- One byte of tokenizing. -/
def step : TokState → Nat → TokState
  | TokState.lit r, b =>
    match r with
    | [] => TokState.failSt
    | p :: ps => if b == p then (if ps.isEmpty then TokState.minorSt else TokState.lit ps) else TokState.failSt
  | TokState.minorSt, b =>
    if b == 48 then TokState.spaceSt 0 else if b == 49 then TokState.spaceSt 1 else TokState.failSt
  | TokState.spaceSt m, b => if b == 32 then TokState.codeSt m 0 0 else TokState.failSt
  | TokState.codeSt m acc cnt, b =>
    if 48 ≤ b && b ≤ 57 then
      (if cnt == 2 then TokState.afterCode m (acc * 10 + (b - 48))
       else TokState.codeSt m (acc * 10 + (b - 48)) (cnt + 1))
    else TokState.failSt
  | TokState.afterCode m c, b =>
    if b == 32 then TokState.reasonSt m c
    else if b == 13 then TokState.statusCR m c
    else TokState.failSt
  | TokState.reasonSt m c, b =>
    if b == 13 then TokState.statusCR m c
    else if isReasonByte b then TokState.reasonSt m c
    else TokState.failSt
  | TokState.statusCR m c, b => if b == 10 then TokState.hdrStart m c [] else TokState.failSt
  | TokState.hdrStart m c hs, b =>
    if b == 13 then TokState.finalCR m c hs
    else if isTokenByte b then
      (if hs.length < MAX_HEADERS then TokState.nameSt m c hs [b] else TokState.failSt)
    else TokState.failSt
  | TokState.finalCR m c hs, b => if b == 10 then TokState.doneSt m c hs else TokState.failSt
  | TokState.nameSt m c hs acc, b =>
    if b == 58 then TokState.valueSkip m c hs acc
    else if isTokenByte b then TokState.nameSt m c hs (acc ++ [b])
    else TokState.failSt
  | TokState.valueSkip m c hs n, b =>
    if b == 32 || b == 9 then TokState.valueSkip m c hs n
    else if b == 13 then TokState.valueCR m c hs n []
    else if isValueByte b then TokState.valueSt m c hs n [b]
    else TokState.failSt
  | TokState.valueSt m c hs n acc, b =>
    if b == 13 then TokState.valueCR m c hs n acc
    else if isValueByte b then TokState.valueSt m c hs n (acc ++ [b])
    else TokState.failSt
  | TokState.valueCR m c hs n acc, b =>
    if b == 10 then TokState.hdrStart m c (hs ++ [(n, trimEnd acc)])
    else TokState.failSt
  | TokState.doneSt m c hs, _ => TokState.doneSt m c hs
  | TokState.failSt, _ => TokState.failSt

/-- Tokenizer outcome: `httparse::Status::Complete` with the located head,
`httparse::Status::Partial`, or a tokenizer error. -/
inductive TokResult where
  | complete (h : Head)
  | incomplete
  | err
deriving DecidableEq

/-- The result forced by an absorbing state, if any; `pos` is the number of
bytes consumed so far. -/
def finalResult (st : TokState) (pos : Nat) : Option TokResult :=
  match st with
  | TokState.doneSt m c hs => some (TokResult.complete ⟨pos, c, m, hs⟩)
  | TokState.failSt => some TokResult.err
  | _ => none

/-- Run the state machine from `st` over `bs`, having consumed `pos` bytes
already: stop as soon as an absorbing state is reached (bytes after the
blank line are the body and are not tokenized); an exhausted input in a
live state is an incomplete (partial) result. -/
def runFrom : TokState → Nat → Bytes → TokResult
  | st, pos, [] =>
    match finalResult st pos with
    | some r => r
    | none => TokResult.incomplete
  | st, pos, b :: rest =>
    match finalResult st pos with
    | some r => r
    | none => runFrom (step st b) (pos + 1) rest

/-- The initial tokenizer state: expecting the literal `HTTP/1.`. -/
def initState : TokState := TokState.lit (byts "HTTP/1.")

/-- Modelled from the spec: `httparse::Response::parse` as a whole —
tokenize the buffer from its start. -/
def tokenize (buf : Bytes) : TokResult := runFrom initState 0 buf

/-! ## Response decoding (`ResponseParser::parse`, `src/proto/http1/parse.rs`) -/

/-- Modelled from the spec: `HeaderName::from_bytes` of the vendored `http`
crate validates that the name is a non-empty run of token bytes and stores
it ASCII-lowercased (the repository's own request test shows `Host`
becoming `host` on the wire). -/
def HeaderName.from_bytes (name : Bytes) : Except HttpError Bytes :=
  if name ≠ [] ∧ name.all isTokenByte then Except.ok (name.map lowerByte)
  else Except.error HttpError.invalidHeaderName

/-- `record_header_indices` (`src/proto/http1/parse.rs` lines 198-220),
abstracted from pointer arithmetic: the recorded ranges slice back to
exactly the located name/value byte strings, so only its error behaviour —
rejecting any header whose name length is `>= (1 << 16)` — is observable.
The Rust loop also visits the unused empty slots of the 100-entry array,
whose names have length 0 and cannot trip the check. -/
def record_header_indices : List (Bytes × Bytes) → Except HttpError Unit
  | [] => Except.ok ()
  | (n, _) :: rest =>
    if n.length ≥ 2 ^ 16 then Except.error HttpError.invalidHeaderName
    else record_header_indices rest

/-- The lowercased name of the `CONNECTION` header constant. -/
def CONNECTION : Bytes := byts "connection"

/-- The keep-alive toggle applied to one `Connection` header value
(`src/proto/http1/parse.rs` lines 72-78). -/
def keepAliveStep (flag : Bool) (value : Bytes) : Bool :=
  if flag then !connection_close value else connection_keep_alive value

/-- The header-reconstruction loop (`src/proto/http1/parse.rs` lines
67-80): rebuild each header name via `HeaderName::from_bytes`, fold the
keep-alive flag over `Connection` headers, and append every header — in
wire order, without merging — to the header map (modelled as an ordered
association list, matching `HeaderMap::append`). -/
def headerLoop : List (Bytes × Bytes) → Bool → Except HttpError (List (Bytes × Bytes) × Bool)
  | [], ka => Except.ok ([], ka)
  | (n, v) :: rest, ka =>
    match HeaderName.from_bytes n with
    | Except.error e => Except.error e
    | Except.ok name =>
      let ka' := if name = CONNECTION then keepAliveStep ka v else ka
      match headerLoop rest ka' with
      | Except.error e => Except.error e
      | Except.ok (tl, kaf) => Except.ok ((name, v) :: tl, kaf)

/-- The structured response (`Response<Body>` restricted to the fields this
core produces): version, status, ordered header list (lowercased names),
body. -/
structure Response where
  version : Version
  status : Nat
  headers : List (Bytes × Bytes)
  body : Body
deriving DecidableEq

/-- The `httparse::Status::Complete` branch of `ResponseParser::parse`
(`src/proto/http1/parse.rs` lines 42-90).  In source order: status code is
validated, the version minor digit 1 selects `HTTP_11` (anything else
`HTTP_10`), `record_header_indices` runs its name-length check, then
`buf.split_to(len)` leaves only the post-head bytes in `buf`, the header
loop rebuilds the header map and the keep-alive flag, and the body is
`BytesMut::from(&buf[header_len..])` — the source really indexes with
`header_len`, the number of parsed headers, dropping that many bytes from
the front of the body region (and panicking in Rust when the region is
shorter than that; here `List.drop` totalizes it).  The third component is
the value written to `self.keep_alive`, `none` when the field is left
untouched. -/
def parseWithVersion (version : Version) (status : Nat) (h : Head) (buf : Bytes) :
    Except HttpError (ParserResult Response) × Bytes × Option Bool :=
  match record_header_indices h.headers with
  | Except.error e => (Except.error e, buf, none)
  | Except.ok _ =>
    let rest := buf.drop h.len
    match headerLoop h.headers (version == Version.HTTP_11) with
    | Except.error e => (Except.error e, rest, none)
    | Except.ok (hdrs, ka) =>
      let body := rest.drop h.headers.length
      (Except.ok (ParserResult.Complete ⟨version, status, hdrs, Body.new (BodyKind.Binary body)⟩),
       rest, some ka)

/-- The leading status-code validation and version mapping of the same
source branch (`src/proto/http1/parse.rs` lines 43-48), feeding
`parseWithVersion`. -/
def parseFromHead (h : Head) (buf : Bytes) :
    Except HttpError (ParserResult Response) × Bytes × Option Bool :=
  match StatusCode.from_u16 h.code with
  | Except.error e => (Except.error e, buf, none)
  | Except.ok status =>
    parseWithVersion (if h.minor == 1 then Version.HTTP_11 else Version.HTTP_10) status h buf

/-- `ResponseParser::parse` (`src/proto/http1/parse.rs` lines 34-91) as a
function of the buffer alone: tokenizer errors propagate via `?`, a partial
tokenize returns `Partial` with the buffer untouched, and a complete head
is finished by `parseFromHead`. -/
def parseCore (buf : Bytes) : Except HttpError (ParserResult Response) × Bytes × Option Bool :=
  match tokenize buf with
  | TokResult.err => (Except.error HttpError.httparseError, buf, none)
  | TokResult.incomplete => (Except.ok ParserResult.Partial, buf, none)
  | TokResult.complete h => parseFromHead h buf

/-- `ResponseParser::parse` with its receiver state: `keep_alive` is the
field of `ResponseParser`; it is only written (on the complete path), never
read, so the result and the final buffer are those of `parseCore`. -/
def ResponseParser.parse (keep_alive : Bool) (buf : Bytes) :
    Except HttpError (ParserResult Response) × Bytes × Bool :=
  ((parseCore buf).1, (parseCore buf).2.1, ((parseCore buf).2.2).getD keep_alive)

/-! ## Request encoding (`RequestParser`, `src/proto/http1/parse.rs`) -/

/-- Modelled from the spec: the structured request (`Request<Body>` with a
`url::Url` target) restricted to what the encoder reads — `method.as_str()`,
`url.path()`, `url.query()`, `version.as_str()`, the ordered header list,
and the body.  The vendored `request.rs`/`method.rs`/`version.rs` and the
external `url` crate are not under `src/`. -/
structure Request where
  method : Bytes
  path : Bytes
  query : Option Bytes
  version : Bytes
  headers : List (Bytes × Bytes)
  body : Body
deriving DecidableEq

/-- `RequestParser::ready_start_line` (`src/proto/http1/parse.rs` lines
132-139): `"{METHOD} {path}?{query} {VERSION}\r\n"` when the URI carries a
query, else `"{METHOD} {path} {VERSION}\r\n"`. -/
def ready_start_line (req : Request) : Bytes :=
  match req.query with
  | some q => req.method ++ [32] ++ req.path ++ [63] ++ q ++ [32] ++ req.version ++ [13, 10]
  | none => req.method ++ [32] ++ req.path ++ [32] ++ req.version ++ [13, 10]

/-- `RequestParser::end_of_headers` (`src/proto/http1/parse.rs` lines
127-129). -/
def end_of_headers : Bytes := [13, 10]

/-- `RequestParser::ready_body` (`src/proto/http1/parse.rs` lines 142-155):
Text → the string's UTF-8 bytes, Binary → the raw bytes, Empty → nothing. -/
def ready_body (b : Body) : Bytes :=
  match b.kind with
  | BodyKind.Text t => t
  | BodyKind.Binary bin => bin
  | BodyKind.Empty => []

/-- `RequestParser::ready_headers` (`src/proto/http1/parse.rs` lines
158-163): each header is written as `"{name}: {value}\r\n"` in the header
collection's iteration order; `value.to_str()?` aborts on a
non-visible-ASCII value. -/
def ready_headers : List (Bytes × Bytes) → Except HttpError Bytes
  | [] => Except.ok []
  | (n, v) :: rest =>
    match to_str v with
    | none => Except.error HttpError.toStrError
    | some s =>
      match ready_headers rest with
      | Except.error e => Except.error e
      | Except.ok tl => Except.ok (n ++ [58, 32] ++ s ++ [13, 10] ++ tl)

/-- `RequestParser::encode` = `ready` (`src/proto/http1/parse.rs` lines
116-124, 173-177): start line, headers, blank line, body bytes. -/
def RequestParser.encode (req : Request) : Except HttpError Bytes :=
  match ready_headers req.headers with
  | Except.error e => Except.error e
  | Except.ok hb =>
    Except.ok (ready_start_line req ++ hb ++ end_of_headers ++ ready_body req.body)

/-- One encoded header line, for stating order preservation. -/
def renderHeader (nv : Bytes × Bytes) : Bytes := nv.1 ++ [58, 32] ++ nv.2 ++ [13, 10]

/-- The keep-alive flag as a fold of the toggle rule over the decoded
header list (names already lowercased), seeded with the per-version
default.  Used to state that the decoder processes multiple `Connection`
headers in wire order. -/
def keepAliveFold (init : Bool) (hs : List (Bytes × Bytes)) : Bool :=
  hs.foldl (fun ka nv => if nv.1 = CONNECTION then keepAliveStep ka nv.2 else ka) init

/-! ## Lemmas about the tokenizer run -/

lemma runFrom_final {st : TokState} {pos : Nat} {r : TokResult} (bs : Bytes)
    (h : finalResult st pos = some r) : runFrom st pos bs = r := by
  cases bs <;> simp only [runFrom] <;> rw [h]

lemma runFrom_nil {st : TokState} {pos : Nat}
    (h : finalResult st pos = none) : runFrom st pos [] = TokResult.incomplete := by
  simp only [runFrom]
  rw [h]

lemma runFrom_cons {st : TokState} {pos : Nat} {b : Nat} {bs : Bytes}
    (h : finalResult st pos = none) :
    runFrom st pos (b :: bs) = runFrom (step st b) (pos + 1) bs := by
  simp only [runFrom]
  rw [h]

lemma finalResult_complete_len {st : TokState} {pos : Nat} {h : Head}
    (hf : finalResult st pos = some (TokResult.complete h)) : h.len = pos := by
  cases st <;> simp [finalResult] at hf
  subst hf
  rfl

/-- Core of the "truncation gives a partial result" direction: if a run
completes a head of length `len`, then the run on any strict truncation of
its input that stops before `len` total bytes ends in a live state, i.e.
reports incomplete input. -/
lemma runFrom_take_incomplete :
    ∀ (bs : Bytes) (st : TokState) (pos : Nat) (h : Head),
      runFrom st pos bs = TokResult.complete h →
      pos ≤ h.len ∧
        ∀ k, pos + k < h.len → runFrom st pos (bs.take k) = TokResult.incomplete := by
  intro bs
  induction bs with
  | nil =>
    intro st pos h hrun
    match hfr : finalResult st pos with
    | some r =>
      rw [runFrom_final [] hfr] at hrun
      subst hrun
      have hl := finalResult_complete_len hfr
      constructor
      · omega
      · intro k hk
        omega
    | none =>
      rw [runFrom_nil hfr] at hrun
      exact absurd hrun (by simp)
  | cons b rest ih =>
    intro st pos h hrun
    match hfr : finalResult st pos with
    | some r =>
      rw [runFrom_final (b :: rest) hfr] at hrun
      subst hrun
      have hl := finalResult_complete_len hfr
      constructor
      · omega
      · intro k hk
        omega
    | none =>
      rw [runFrom_cons hfr] at hrun
      obtain ⟨hle, htake⟩ := ih (step st b) (pos + 1) h hrun
      constructor
      · omega
      · intro k hk
        match k with
        | 0 =>
          simpa using runFrom_nil hfr
        | Nat.succ j =>
          rw [List.take_succ_cons, runFrom_cons hfr]
          exact htake j (by omega)

/-- Any strict truncation of the head of a tokenizable buffer tokenizes to
an incomplete (partial) result. -/
lemma tokenize_take_incomplete {buf : Bytes} {h : Head}
    (hc : tokenize buf = TokResult.complete h) :
    ∀ k, k < h.len → tokenize (buf.take k) = TokResult.incomplete := by
  intro k hk
  have := (runFrom_take_incomplete buf initState 0 h hc).2 k (by omega)
  simpa [tokenize] using this

/-! ## Lemmas about the decode pipeline -/

/-- The complete-head pipeline can never report a partial result: status
validation, the name-length check and header reconstruction all surface as
typed errors. -/
lemma parseWithVersion_ne_partial (v : Version) (status : Nat) (h : Head) (buf : Bytes) :
    (parseWithVersion v status h buf).1 ≠ Except.ok ParserResult.Partial := by
  intro hc
  unfold parseWithVersion at hc
  generalize hri : record_header_indices h.headers = ri at hc
  cases ri with
  | error e => simp at hc
  | ok u =>
    generalize hl : headerLoop h.headers (v == Version.HTTP_11) = hlr at hc
    cases hlr with
    | error e => simp at hc
    | ok p =>
      obtain ⟨hdrs, kaf⟩ := p
      simp at hc

lemma parseFromHead_ne_partial (h : Head) (buf : Bytes) :
    (parseFromHead h buf).1 ≠ Except.ok ParserResult.Partial := by
  intro hc
  unfold parseFromHead at hc
  generalize hsc : StatusCode.from_u16 h.code = sc at hc
  cases sc with
  | error e => simp at hc
  | ok status =>
    exact parseWithVersion_ne_partial _ status h buf hc

lemma record_header_indices_error_of_oversized :
    ∀ hs : List (Bytes × Bytes), (∃ nv ∈ hs, 65535 < nv.1.length) →
      record_header_indices hs = Except.error HttpError.invalidHeaderName := by
  intro hs
  induction hs with
  | nil => simp
  | cons nv rest ih =>
    obtain ⟨n, v⟩ := nv
    intro hex
    simp only [record_header_indices]
    have h216 : (2 : Nat) ^ 16 = 65536 := by norm_num
    by_cases hbig : n.length ≥ 2 ^ 16
    · rw [if_pos hbig]
    · rw [if_neg hbig]
      apply ih
      obtain ⟨nv', hmem, hlen⟩ := hex
      rcases List.mem_cons.mp hmem with hhd | htl
      · exfalso
        subst hhd
        rw [h216] at hbig
        simp at hlen
        omega
      · exact ⟨nv', htl, hlen⟩

lemma record_header_indices_ok_of_small :
    ∀ hs : List (Bytes × Bytes), (∀ nv ∈ hs, nv.1.length ≤ 65535) →
      record_header_indices hs = Except.ok () := by
  intro hs
  induction hs with
  | nil => simp [record_header_indices]
  | cons nv rest ih =>
    intro hall
    obtain ⟨n, v⟩ := nv
    simp only [record_header_indices]
    rw [if_neg (by
      have h1 := hall (n, v) (by simp)
      simp at h1
      have h2 : (2 : Nat) ^ 16 = 65536 := by norm_num
      rw [h2]
      omega)]
    exact ih fun nv' hm => hall nv' (List.mem_cons_of_mem _ hm)

/-- The header loop leaves the keep-alive flag equal to the fold of the
toggle rule, in order, over the headers it produced. -/
lemma headerLoop_keepAliveFold :
    ∀ (hs : List (Bytes × Bytes)) (ka : Bool) (out : List (Bytes × Bytes)) (kaf : Bool),
      headerLoop hs ka = Except.ok (out, kaf) → kaf = keepAliveFold ka out := by
  intro hs
  induction hs with
  | nil =>
    intro ka out kaf hl
    simp only [headerLoop] at hl
    obtain ⟨rfl, rfl⟩ : out = [] ∧ kaf = ka := by
      constructor <;> { cases hl; rfl }
    rfl
  | cons nv rest ih =>
    intro ka out kaf hl
    obtain ⟨n, v⟩ := nv
    simp only [headerLoop] at hl
    cases hn : HeaderName.from_bytes n with
    | error e => simp [hn] at hl
    | ok name =>
      cases hrec : headerLoop rest (if name = CONNECTION then keepAliveStep ka v else ka) with
      | error e => simp [hn, hrec] at hl
      | ok p =>
        obtain ⟨tl, kaf'⟩ := p
        simp [hn, hrec] at hl
        obtain ⟨hout, hka⟩ := hl
        subst hka
        rw [← hout]
        have := ih _ tl kaf' hrec
        simpa [keepAliveFold] using this

/-! ## Lemmas about the encoder -/

lemma ready_headers_ok_eq :
    ∀ (hs : List (Bytes × Bytes)) (hb : Bytes),
      ready_headers hs = Except.ok hb → hb = (hs.map renderHeader).flatten := by
  intro hs
  induction hs with
  | nil =>
    intro hb h
    simp only [ready_headers] at h
    cases h
    simp
  | cons nv rest ih =>
    intro hb h
    obtain ⟨n, v⟩ := nv
    simp only [ready_headers] at h
    cases hts : to_str v with
    | none => rw [hts] at h; cases h
    | some s =>
      rw [hts] at h
      cases hrest : ready_headers rest with
      | error e => rw [hrest] at h; cases h
      | ok tl =>
        rw [hrest] at h
        cases h
        have hsv : s = v := by
          unfold to_str at hts
          by_cases hv : v.all is_visible_ascii
          · rw [if_pos hv] at hts; cases hts; rfl
          · rw [if_neg hv] at hts; cases hts
        subst hsv
        rw [ih tl hrest]
        simp [renderHeader]

/-- A successful encode is exactly: request line, each header rendered in
iteration order, blank line, body bytes. -/
lemma encode_ok_shape {req : Request} {out : Bytes}
    (he : RequestParser.encode req = Except.ok out) :
    out = ready_start_line req ++ (req.headers.map renderHeader).flatten
            ++ end_of_headers ++ ready_body req.body := by
  unfold RequestParser.encode at he
  cases hh : ready_headers req.headers with
  | error e => rw [hh] at he; cases he
  | ok hb =>
    rw [hh] at he
    cases he
    rw [ready_headers_ok_eq req.headers hb hh]

/-- Folding the toggle rule over headers none of which is `Connection`
leaves the seed unchanged. -/
lemma keepAliveFold_no_connection :
    ∀ (hs : List (Bytes × Bytes)) (init : Bool), (∀ nv ∈ hs, nv.1 ≠ CONNECTION) →
      keepAliveFold init hs = init := by
  intro hs
  induction hs with
  | nil => intro init h; rfl
  | cons nv rest ih =>
    intro init h
    simp only [keepAliveFold, List.foldl_cons]
    rw [if_neg (h nv (by simp))]
    exact ih init fun nv' hm => h nv' (by simp [hm])

/-- On the complete path, the keep-alive value written to the parser state
is the fold of the toggle rule over the decoded headers, seeded with
"version is HTTP/1.1". -/
lemma parseWithVersion_complete_keepAlive {v : Version} {status : Nat} {h : Head} {buf : Bytes}
    {r : Response} {rest : Bytes} {kaOpt : Option Bool}
    (hp : parseWithVersion v status h buf = (Except.ok (ParserResult.Complete r), rest, kaOpt)) :
    r.version = v ∧ kaOpt = some (keepAliveFold (r.version == Version.HTTP_11) r.headers) := by
  unfold parseWithVersion at hp
  generalize hri : record_header_indices h.headers = ri at hp
  cases ri with
  | error e => simp at hp
  | ok u =>
    generalize hl : headerLoop h.headers (v == Version.HTTP_11) = hlr at hp
    cases hlr with
    | error e => simp at hp
    | ok p =>
      obtain ⟨hdrs, kaf⟩ := p
      simp only [Prod.mk.injEq, Except.ok.injEq] at hp
      obtain ⟨hres, hrest, hka⟩ := hp
      have hr : r = ⟨v, status, hdrs, Body.new (BodyKind.Binary ((buf.drop h.len).drop h.headers.length))⟩ := by
        cases hres
        rfl
      subst hr
      refine ⟨rfl, ?_⟩
      rw [← hka]
      exact congrArg some (headerLoop_keepAliveFold h.headers _ hdrs kaf hl)

lemma parseFromHead_complete_keepAlive {h : Head} {buf : Bytes}
    {r : Response} {rest : Bytes} {kaOpt : Option Bool}
    (hp : parseFromHead h buf = (Except.ok (ParserResult.Complete r), rest, kaOpt)) :
    kaOpt = some (keepAliveFold (r.version == Version.HTTP_11) r.headers) := by
  unfold parseFromHead at hp
  generalize hsc : StatusCode.from_u16 h.code = sc at hp
  cases sc with
  | error e => simp at hp
  | ok status => exact (parseWithVersion_complete_keepAlive hp).2

/-- The keep-alive field written by a completing `ResponseParser::parse` is
the fold of the toggle rule over the decoded header list. -/
lemma parse_complete_keepAlive {st : Bool} {buf : Bytes} {r : Response} {rest : Bytes} {ka : Bool}
    (hp : ResponseParser.parse st buf = (Except.ok (ParserResult.Complete r), rest, ka)) :
    ka = keepAliveFold (r.version == Version.HTTP_11) r.headers := by
  unfold ResponseParser.parse at hp
  simp only [Prod.mk.injEq] at hp
  obtain ⟨h1, h2, h3⟩ := hp
  unfold parseCore at h1 h3
  cases htok : tokenize buf with
  | err => rw [htok] at h1; simp at h1
  | incomplete => rw [htok] at h1; simp at h1
  | complete h =>
    rw [htok] at h1 h3
    change (parseFromHead h buf).1 = _ at h1
    change ((parseFromHead h buf).2.2).getD st = _ at h3
    rcases hph : parseFromHead h buf with ⟨res, rb, kopt⟩
    rw [hph] at h1 h3
    simp only [] at h1 h3
    subst h1
    have := @parseFromHead_complete_keepAlive h buf r rb kopt (by rw [hph])
    rw [this] at h3
    rw [← h3]
    rfl

/-! ## Claim theorems -/

deriving instance DecidableEq for Except

/-- C1: the spec states that for a complete response buffer the parser
returns `Complete` with the parsed status and headers and a Binary body
equal to exactly the bytes after the header-terminating blank line.  On the
claim's own example buffer the status (404), the headers
(`content-length = 150`, `connection = keep-alive`) and the keep-alive flag
all come out as specified, but the body is `"ody>"`, not `"<body>"`: the
source indexes the body region with `header_len`, the number of parsed
headers (2 here), dropping the first two body bytes.  This theorem
evaluates the model at the failing input and records that the produced
body differs from the bytes after the blank line. -/
theorem claim_C1_body_bytes_dropped :
    ResponseParser.parse false
        (byts "HTTP/1.1 404 Not Found\r\nContent-Length: 150\r\nConnection: keep-alive\r\n\r\n<body>")
      = (Except.ok (ParserResult.Complete
          ⟨Version.HTTP_11, 404,
           [(byts "content-length", byts "150"), (byts "connection", byts "keep-alive")],
           Body.new (BodyKind.Binary (byts "ody>"))⟩),
         byts "<body>", true)
    ∧ byts "ody>" ≠ byts "<body>" := by
  exact ⟨by decide, by decide⟩

/-- C2: the keep-alive flag starts as true iff the version is HTTP/1.1
(shown by the matrix rows and, generally, by any complete decode with no
`Connection` header); a `Connection` header present while the flag is true
flips it to false exactly when the comma-separated, case-insensitive token
list contains `close`, and while false flips it to true exactly when the
list contains `keep-alive`; absence of a matching token leaves the flag
unchanged.  The four concrete matrix rows evaluate the full decoder. -/
theorem claim_C2_keep_alive_policy :
    (∀ val : Bytes, keepAliveStep true val = !connection_close val)
  ∧ (∀ val : Bytes, keepAliveStep false val = connection_keep_alive val)
  ∧ (∀ (st : Bool) (buf : Bytes) (r : Response) (rest : Bytes) (ka : Bool),
       ResponseParser.parse st buf = (Except.ok (ParserResult.Complete r), rest, ka) →
       (∀ nv ∈ r.headers, nv.1 ≠ CONNECTION) →
       (ka = true ↔ r.version = Version.HTTP_11))
  ∧ keepAliveStep true (byts "Close") = false
  ∧ keepAliveStep true (byts "foo, CLOSE") = false
  ∧ keepAliveStep true (byts "keep-alive") = true
  ∧ keepAliveStep false (byts "close") = false
  ∧ (ResponseParser.parse false (byts "HTTP/1.1 200 OK\r\n\r\n")).2.2 = true
  ∧ (ResponseParser.parse false (byts "HTTP/1.1 200 OK\r\nConnection: close\r\n\r\n")).2.2 = false
  ∧ (ResponseParser.parse true (byts "HTTP/1.0 200 OK\r\n\r\n")).2.2 = false
  ∧ (ResponseParser.parse false (byts "HTTP/1.0 200 OK\r\nConnection: keep-alive\r\n\r\n")).2.2 = true := by
  refine ⟨fun val => rfl, fun val => rfl, ?_, by decide, by decide, by decide, by decide,
          by decide, by decide, by decide, by decide⟩
  intro st buf r rest ka hp hnone
  have h1 := parse_complete_keepAlive hp
  rw [keepAliveFold_no_connection r.headers _ hnone] at h1
  rw [h1]
  simp

/-- C2 witness: a complete HTTP/1.1 decode whose single header is not
`Connection` instantiates the universal clause. -/
theorem claim_C2_witness : true = true ↔ Version.HTTP_11 = Version.HTTP_11 :=
  claim_C2_keep_alive_policy.2.2.1 false (byts "HTTP/1.1 200 OK\r\nx: y\r\n\r\n")
    ⟨Version.HTTP_11, 200, [(byts "x", byts "y")], Body.new (BodyKind.Binary [])⟩ [] true
    (by decide) (by decide)

/-- C3: a partial result arises exactly from the tokenizer running out of
bytes — the empty buffer and the truncated example are `Partial`; whenever
tokenizing completes a head of length `len`, every truncation of the buffer
shorter than `len` is `Partial`; the complete-head pipeline itself can
never produce `Partial`, so malformed status lines, malformed header lines
and out-of-range status codes (three concrete inputs) are typed errors; and
a `Partial` decode returns the buffer unconsumed with the parser state
untouched. -/
theorem claim_C3_partial_iff_incomplete :
    (∀ st : Bool, ResponseParser.parse st [] = (Except.ok ParserResult.Partial, [], st))
  ∧ (∀ st : Bool, ResponseParser.parse st (byts "HTTP/1.1 200 OK\r\nContent-Typ")
      = (Except.ok ParserResult.Partial, byts "HTTP/1.1 200 OK\r\nContent-Typ", st))
  ∧ (∀ (st : Bool) (buf : Bytes), tokenize buf = TokResult.incomplete →
      ResponseParser.parse st buf = (Except.ok ParserResult.Partial, buf, st))
  ∧ (∀ (st : Bool) (buf : Bytes), (ResponseParser.parse st buf).1 = Except.ok ParserResult.Partial →
      tokenize buf = TokResult.incomplete ∧
        ResponseParser.parse st buf = (Except.ok ParserResult.Partial, buf, st))
  ∧ (∀ (buf : Bytes) (h : Head), tokenize buf = TokResult.complete h →
      ∀ k, k < h.len → tokenize (List.take k buf) = TokResult.incomplete)
  ∧ (∀ st : Bool, ResponseParser.parse st (byts "XTTP/1.1 200 OK\r\n\r\n")
      = (Except.error HttpError.httparseError, byts "XTTP/1.1 200 OK\r\n\r\n", st))
  ∧ (∀ st : Bool, ResponseParser.parse st (byts "HTTP/1.1 200 OK\r\nBad Header: x\r\n\r\n")
      = (Except.error HttpError.httparseError, byts "HTTP/1.1 200 OK\r\nBad Header: x\r\n\r\n", st))
  ∧ (∀ st : Bool, ResponseParser.parse st (byts "HTTP/1.1 099 Low\r\n\r\n")
      = (Except.error HttpError.invalidStatusCode, byts "HTTP/1.1 099 Low\r\n\r\n", st)) := by
  refine ⟨?_, ?_, ?_, ?_, ?_, ?_, ?_, ?_⟩
  · intro st; cases st <;> decide
  · intro st; cases st <;> decide
  · intro st buf h
    simp [ResponseParser.parse, parseCore, h]
  · intro st buf hp
    cases htok : tokenize buf with
    | complete h =>
      exfalso
      unfold ResponseParser.parse parseCore at hp
      rw [htok] at hp
      exact parseFromHead_ne_partial h buf hp
    | err =>
      exfalso
      unfold ResponseParser.parse parseCore at hp
      rw [htok] at hp
      simp at hp
    | incomplete =>
      exact ⟨rfl, by simp [ResponseParser.parse, parseCore, htok]⟩
  · intro buf h hc k hk
    exact tokenize_take_incomplete hc k hk
  · intro st; cases st <;> decide
  · intro st; cases st <;> decide
  · intro st; cases st <;> decide

/-- C3 witness: the well-formed minimal response tokenizes to a head of
length 19, and its 5-byte truncation is an incomplete (partial) result. -/
theorem claim_C3_witness :
    tokenize (List.take 5 (byts "HTTP/1.1 200 OK\r\n\r\n")) = TokResult.incomplete :=
  claim_C3_partial_iff_incomplete.2.2.2.2.1 (byts "HTTP/1.1 200 OK\r\n\r\n") ⟨19, 200, 1, []⟩
    (by decide) 5 (by decide)

/-- C4: a header name longer than 65535 bytes makes
`record_header_indices` — and with it the whole complete-head pipeline,
provided the status code itself is valid — fail with the invalid-header-name
error, leaving the buffer untouched; the pipeline can never answer
`Partial`; and names of length up to and including 65535 pass the length
check. -/
theorem claim_C4_oversized_header_name :
    (∀ hs : List (Bytes × Bytes), (∃ nv ∈ hs, 65535 < nv.1.length) →
       record_header_indices hs = Except.error HttpError.invalidHeaderName)
  ∧ (∀ hs : List (Bytes × Bytes), (∀ nv ∈ hs, nv.1.length ≤ 65535) →
       record_header_indices hs = Except.ok ())
  ∧ (∀ (h : Head) (buf : Bytes), (parseFromHead h buf).1 ≠ Except.ok ParserResult.Partial)
  ∧ (∀ (h : Head) (buf : Bytes), 100 ≤ h.code → h.code < 1000 →
       (∃ nv ∈ h.headers, 65535 < nv.1.length) →
       parseFromHead h buf = (Except.error HttpError.invalidHeaderName, buf, none)) := by
  refine ⟨record_header_indices_error_of_oversized, record_header_indices_ok_of_small,
          parseFromHead_ne_partial, ?_⟩
  intro h buf h1 h2 hex
  have hsc : StatusCode.from_u16 h.code = Except.ok h.code := by
    unfold StatusCode.from_u16
    rw [if_pos ⟨h1, h2⟩]
  have hrec := record_header_indices_error_of_oversized h.headers hex
  unfold parseFromHead parseWithVersion
  rw [hsc, hrec]

/-- C4 witness: a head whose single header name is 65536 bytes of `a` is
rejected with the invalid-header-name error. -/
theorem claim_C4_witness :
    parseFromHead ⟨4, 200, 1, [(List.replicate 65536 97, byts "v")]⟩ (byts "ab")
      = (Except.error HttpError.invalidHeaderName, byts "ab", none) :=
  claim_C4_oversized_header_name.2.2.2 ⟨4, 200, 1, [(List.replicate 65536 97, byts "v")]⟩
    (byts "ab") (by norm_num) (by norm_num)
    ⟨(List.replicate 65536 97, byts "v"), List.mem_singleton.mpr rfl, by
      show 65535 < (List.replicate 65536 97).length
      rw [List.length_replicate]
      norm_num⟩

/-- C5: the encoded request line is `"{METHOD} {path}?{query} {VERSION}\r\n"`
when the URI carries a query and `"{METHOD} {path} {VERSION}\r\n"` when it
does not, verified generally against the encoder output and on the two
concrete examples. -/
theorem claim_C5_request_line :
    (∀ (req : Request) (q : Bytes) (out : Bytes), req.query = some q →
       RequestParser.encode req = Except.ok out →
       ∃ tail, out = req.method ++ [32] ++ req.path ++ [63] ++ q ++ [32] ++ req.version ++ [13, 10] ++ tail)
  ∧ (∀ (req : Request) (out : Bytes), req.query = none →
       RequestParser.encode req = Except.ok out →
       ∃ tail, out = req.method ++ [32] ++ req.path ++ [32] ++ req.version ++ [13, 10] ++ tail)
  ∧ RequestParser.encode ⟨byts "GET", byts "/a/b", some (byts "q=1"), byts "HTTP/1.1", [], Body.empty⟩
      = Except.ok (byts "GET /a/b?q=1 HTTP/1.1\r\n\r\n")
  ∧ RequestParser.encode ⟨byts "GET", byts "/a/b", none, byts "HTTP/1.1", [], Body.empty⟩
      = Except.ok (byts "GET /a/b HTTP/1.1\r\n\r\n") := by
  refine ⟨?_, ?_, by decide, by decide⟩
  · intro req q out hq he
    refine ⟨(req.headers.map renderHeader).flatten ++ end_of_headers ++ ready_body req.body, ?_⟩
    rw [encode_ok_shape he]
    unfold ready_start_line
    rw [hq]
    simp [List.append_assoc]
  · intro req out hq he
    refine ⟨(req.headers.map renderHeader).flatten ++ end_of_headers ++ ready_body req.body, ?_⟩
    rw [encode_ok_shape he]
    unfold ready_start_line
    rw [hq]
    simp [List.append_assoc]

/-- C5 witness: the query-bearing example instantiates the universal
clause. -/
theorem claim_C5_witness :
    ∃ tail, byts "GET /a/b?q=1 HTTP/1.1\r\n\r\n"
      = byts "GET" ++ [32] ++ byts "/a/b" ++ [63] ++ byts "q=1" ++ [32] ++ byts "HTTP/1.1" ++ [13, 10] ++ tail :=
  claim_C5_request_line.1 ⟨byts "GET", byts "/a/b", some (byts "q=1"), byts "HTTP/1.1", [], Body.empty⟩
    (byts "q=1") (byts "GET /a/b?q=1 HTTP/1.1\r\n\r\n") rfl (by decide)

/-- C6: a successful encode is exactly the request line, then every header
of the request rendered `"{name}: {value}\r\n"` in the list's (insertion)
order — no deduplication, reordering, or injected header — then the blank
line and the body; the concrete example shows `Host` before `User-Agent`
surviving in that order. -/
theorem claim_C6_headers_in_order :
    (∀ (req : Request) (out : Bytes), RequestParser.encode req = Except.ok out →
       out = ready_start_line req ++ (req.headers.map renderHeader).flatten
               ++ end_of_headers ++ ready_body req.body)
  ∧ RequestParser.encode ⟨byts "GET", byts "/", none, byts "HTTP/1.1",
       [(byts "host", byts "www.baidu.com"), (byts "user-agent", byts "request-rs")], Body.empty⟩
      = Except.ok (byts "GET / HTTP/1.1\r\nhost: www.baidu.com\r\nuser-agent: request-rs\r\n\r\n") :=
  ⟨fun req out he => encode_ok_shape he, by decide⟩

/-- C6 witness: a one-header request instantiates the universal clause. -/
theorem claim_C6_witness :
    byts "GET / HTTP/1.1\r\nA: b\r\n\r\n"
      = ready_start_line ⟨byts "GET", byts "/", none, byts "HTTP/1.1", [(byts "A", byts "b")], Body.empty⟩
          ++ ([(byts "A", byts "b")].map renderHeader).flatten ++ end_of_headers ++ ready_body Body.empty :=
  claim_C6_headers_in_order.1
    ⟨byts "GET", byts "/", none, byts "HTTP/1.1", [(byts "A", byts "b")], Body.empty⟩
    (byts "GET / HTTP/1.1\r\nA: b\r\n\r\n") (by decide)

/-- C7: the bytes an encode produces after the terminating blank line are
exactly the body bytes — the UTF-8 bytes of a Text body, the raw bytes of a
Binary body, nothing for Empty — with no extra delimiter, as in the
`username=123` example. -/
theorem claim_C7_body_verbatim :
    (∀ (req : Request) (out : Bytes), RequestParser.encode req = Except.ok out →
       out = (ready_start_line req ++ (req.headers.map renderHeader).flatten)
               ++ [13, 10] ++ ready_body req.body)
  ∧ (∀ t, ready_body (Body.new (BodyKind.Text t)) = t)
  ∧ (∀ b, ready_body (Body.new (BodyKind.Binary b)) = b)
  ∧ ready_body (Body.new BodyKind.Empty) = []
  ∧ RequestParser.encode ⟨byts "POST", byts "/login", none, byts "HTTP/1.1", [],
       Body.from_str (byts "username=123")⟩
      = Except.ok (byts "POST /login HTTP/1.1\r\n\r\nusername=123") := by
  refine ⟨?_, fun t => rfl, fun b => rfl, rfl, by decide⟩
  intro req out he
  rw [encode_ok_shape he]
  simp [end_of_headers, List.append_assoc]

/-- C7 witness: the Text-body example instantiates the universal clause. -/
theorem claim_C7_witness :
    byts "POST /a HTTP/1.1\r\n\r\nusername=123"
      = (ready_start_line ⟨byts "POST", byts "/a", none, byts "HTTP/1.1", [],
           Body.from_str (byts "username=123")⟩
          ++ (([] : List (Bytes × Bytes)).map renderHeader).flatten)
          ++ [13, 10] ++ ready_body (Body.from_str (byts "username=123")) :=
  claim_C7_body_verbatim.1
    ⟨byts "POST", byts "/a", none, byts "HTTP/1.1", [], Body.from_str (byts "username=123")⟩
    (byts "POST /a HTTP/1.1\r\n\r\nusername=123") (by decide)

/-- C8: decoding is a pure function of the buffer: with any two parser
states, the result and the post-call buffer of parsing the same bytes are
structurally equal (the state field is write-only). -/
theorem claim_C8_decode_deterministic :
    ∀ (st1 st2 : Bool) (buf : Bytes),
      (ResponseParser.parse st1 buf).1 = (ResponseParser.parse st2 buf).1 ∧
      (ResponseParser.parse st1 buf).2.1 = (ResponseParser.parse st2 buf).2.1 :=
  fun _ _ _ => ⟨rfl, rfl⟩

/-- C9: `body_length` is 0 for Empty, the string's byte length for Text,
the buffer's length for Binary, and the conversion constructors each place
an unmodified copy of their input in the corresponding variant. -/
theorem claim_C9_body_accessors :
    (∀ t, (Body.new (BodyKind.Text t)).body_length = t.length)
  ∧ (∀ b, (Body.new (BodyKind.Binary b)).body_length = b.length)
  ∧ (Body.new BodyKind.Empty).body_length = 0
  ∧ (∀ s, Body.from_str s = Body.new (BodyKind.Text s))
  ∧ (∀ s, Body.from_string s = Body.new (BodyKind.Text s))
  ∧ (∀ b, Body.from_bytes b = Body.new (BodyKind.Binary b))
  ∧ (∀ v, Body.from_vec v = Body.new (BodyKind.Binary v))
  ∧ Body.empty.body_length = 0 :=
  ⟨fun _ => rfl, fun _ => rfl, rfl, fun _ => rfl, fun _ => rfl, fun _ => rfl, fun _ => rfl, rfl⟩

/-- C10: the keep-alive flag stored by a completing decode is the fold of
the toggle rule over the decoded headers in wire order, so each
`Connection` occurrence acts on the flag left by the previous one and a
later occurrence can reverse an earlier one, as the two double-`Connection`
examples show. -/
theorem claim_C10_connection_fold :
    (∀ (st : Bool) (buf : Bytes) (r : Response) (rest : Bytes) (ka : Bool),
       ResponseParser.parse st buf = (Except.ok (ParserResult.Complete r), rest, ka) →
       ka = keepAliveFold (r.version == Version.HTTP_11) r.headers)
  ∧ (ResponseParser.parse false
       (byts "HTTP/1.1 200 OK\r\nConnection: close\r\nConnection: keep-alive\r\n\r\n")).2.2 = true
  ∧ (ResponseParser.parse false
       (byts "HTTP/1.1 200 OK\r\nConnection: keep-alive\r\nConnection: close\r\n\r\n")).2.2 = false := by
  refine ⟨?_, by decide, by decide⟩
  intro st buf r rest ka hp
  exact parse_complete_keepAlive hp

/-- C10 witness: the close-then-keep-alive decode instantiates the
universal clause. -/
theorem claim_C10_witness :
    true = keepAliveFold (Version.HTTP_11 == Version.HTTP_11)
      [(byts "connection", byts "close"), (byts "connection", byts "keep-alive")] :=
  claim_C10_connection_fold.1 false
    (byts "HTTP/1.1 200 OK\r\nConnection: close\r\nConnection: keep-alive\r\n\r\n")
    ⟨Version.HTTP_11, 200,
     [(byts "connection", byts "close"), (byts "connection", byts "keep-alive")],
     Body.new (BodyKind.Binary [])⟩ [] true (by decide)

end RequestRs
